import Mathlib

/-!
Verification of the nexa support-assistant core against its specification.

This file shallowly embeds the two core subsystems:

* `CommunicationAgent.handle_user_query` (src/agents/communication_agent.py):
  the turn-bounded decision loop that alternates between invoking a language
  model, parsing its structured output (`ANSWER:` / `TOOL: name QUERY: text`),
  and dispatching to a named tool.
* `RetrievalAgent.process_request` (src/agents/retrieval_agent.py):
  the fetch → dedup → rerank → synthesize pipeline.

External collaborators (the language model, the domain retrievers, the
re-ranking model, the registered tools) are modelled as explicit behaviour
functions that may either return a value or raise an exception; Python
exceptions are modelled by explicit `exn` constructors so that uncaught
propagation is observable.  File I/O (`_save_log_to_file`, `_save_log`) and
the log/reflection bookkeeping of the retrieval agent are external sinks with
no influence on control flow and are not modelled.  The language model is
modelled as a function of the invocation index; since every iteration appends
a new Thought turn to the history rendered into the prompt, successive prompts
are pairwise distinct and an index-based behaviour is exactly as general as a
prompt-based one.
-/

namespace Nexa

/-- A single-quote character, kept out of string literals. -/
def sq : String := String.mk [Char.ofNat 39]

/-- Python regex class `\s` restricted to ASCII: space, tab, newline,
carriage return, vertical tab, form feed.  This is also what `str.strip()`
removes. -/
def isPySpace (c : Char) : Bool :=
  c = ' ' || c = '\t' || c = '\n' || c = '\r' || c = Char.ofNat 11 || c = Char.ofNat 12

/-- Python regex class `\w` restricted to ASCII: letters, digits, underscore. -/
def isWordChar (c : Char) : Bool :=
  c.isAlphanum || c = '_'

/-- Drop leading Python whitespace from a character list. -/
def dropSpaces (cs : List Char) : List Char :=
  cs.dropWhile isPySpace

/-- Python `str.strip()`: remove leading and trailing whitespace. -/
def pythonStrip (s : String) : String :=
  String.mk (dropSpaces (dropSpaces s.data.reverse).reverse)

/-- The suffix of `s` strictly after the first occurrence of `pat`, or `none`
when `pat` does not occur in `s`.  This is the list-level engine behind both
Python `pat in s` and `s.split(pat, 1)[1]`. -/
def afterFirstAux (pat : List Char) : List Char → Option (List Char)
  | [] => if pat.isEmpty then some [] else none
  | c :: cs =>
    if pat.isPrefixOf (c :: cs) then some ((c :: cs).drop pat.length)
    else afterFirstAux pat cs

/-- Python `pat in s` (substring containment). -/
def hasSubstr (pat s : String) : Bool :=
  (afterFirstAux pat.data s.data).isSome

/-- Python `s.split(pat, 1)[1]`, defined when `pat` occurs in `s` (the code
only evaluates it under a `pat in s` guard); returns `""` otherwise. -/
def splitAfterFirst (pat s : String) : String :=
  String.mk ((afterFirstAux pat.data s.data).getD [])

/-- The literal `TOOL:` that starts the tool pattern. -/
def toolLit : List Char := 'T' :: 'O' :: 'O' :: 'L' :: ':' :: []

/-- The literal `QUERY:` inside the tool pattern. -/
def queryLit : List Char := 'Q' :: 'U' :: 'E' :: 'R' :: 'Y' :: ':' :: []

/-- Match `\s*(\w+)\s*QUERY:\s*(.*)` (DOTALL) against the text that follows a
`TOOL:` literal, with Python greedy/backtracking semantics.  `\s` and `\w`
are disjoint character classes, so the only relevant backtracking point is
the right end of the `\w+` group: the greedy match takes the maximal word
run; if the run is not followed (after maximal whitespace) by `QUERY:`, the
single remaining possibility is that the word run itself ends in `QUERY`
immediately followed by `:`.  The `\s*` after `QUERY:` greedily eats
whitespace before the DOTALL `(.*)` group takes the remainder. -/
def matchToolTail (s : List Char) : Option (List Char × List Char) :=
  let s1 := dropSpaces s
  let w := s1.takeWhile isWordChar
  let rest := s1.dropWhile isWordChar
  if w.isEmpty then none
  else
    let rest2 := dropSpaces rest
    if queryLit.isPrefixOf rest2 then
      some (w, dropSpaces (rest2.drop queryLit.length))
    else if decide (5 < w.length) && ('Q' :: 'U' :: 'E' :: 'R' :: 'Y' :: []).isSuffixOf w
            && (rest.head? = some ':') then
      some (w.take (w.length - 5), dropSpaces (rest.drop 1))
    else none

/-- Scan for the leftmost position where the whole pattern
`TOOL:\s*(\w+)\s*QUERY:\s*(.*)` matches, as `re.search` does. -/
def searchToolAux : List Char → Option (List Char × List Char)
  | [] => none
  | c :: cs =>
    if toolLit.isPrefixOf (c :: cs) then
      match matchToolTail ((c :: cs).drop toolLit.length) with
      | some r => some r
      | none => searchToolAux cs
    else searchToolAux cs

/-- Python `re.search(r"TOOL:\s*(\w+)\s*QUERY:\s*(.*)", s, re.DOTALL)`,
returning the two capture groups. -/
def searchTool (s : String) : Option (String × String) :=
  (searchToolAux s.data).map (fun r => (String.mk r.1, String.mk r.2))

/-- A logged conversation turn: `HumanMessage` for `role == "user"`,
`AIMessage` for everything else (`CommunicationAgent.log`). -/
inductive LogMsg where
  | humanMessage (content : String)
  | aiMessage (content : String)
deriving DecidableEq, Repr

/-- Result of one `llm.invoke` call: the returned message content, or a
raised exception carrying its message. -/
inductive LLMResult where
  | ok (content : String)
  | exn (msg : String)
deriving DecidableEq, Repr

/-- Result of one `tool.process_request` call, covering the shapes the
orchestrator normalizes: an `AIMessage`, a `dict` (serialized with
`json.dumps`), anything else (rendered with `str`), or a raised exception. -/
inductive ToolResponse where
  | aiMessage (content : String)
  | dictResp (entries : List (String × String))
  | plain (text : String)
  | exn (msg : String)
deriving DecidableEq, Repr

/-- Escape one character the way `json.dumps` escapes string contents
(quote and backslash; other escapes do not occur in the inputs considered
here). -/
def jsonEscapeChar (c : Char) : String :=
  if c = '\\' then "\\\\" else if c = '"' then "\\\"" else String.mk [c]

/-- Escape a string for inclusion in a JSON document. -/
def jsonEscape (s : String) : String :=
  String.join (s.data.map jsonEscapeChar)

/-- Python `json.dumps` on a string-valued dict (default separators). -/
def jsonDumps (entries : List (String × String)) : String :=
  "\x7b" ++ String.intercalate ", "
      (entries.map (fun e => "\"" ++ jsonEscape e.1 ++ "\": \"" ++ jsonEscape e.2 ++ "\""))
    ++ "\x7d"

/-- Normalization of a non-raising tool response to text: `AIMessage` yields
its `content`, a dict is serialized with `json.dumps`, anything else goes
through `str`.  A raised response never reaches this function (the loop
matches it first); it maps to `none`. -/
def responseStr : ToolResponse → Option String
  | ToolResponse.aiMessage c => some c
  | ToolResponse.dictResp entries => some (jsonDumps entries)
  | ToolResponse.plain t => some t
  | ToolResponse.exn _ => none

/-- The `CommunicationAgent` state: the registered tools (a name-keyed
mapping, names unique), the turn budget and the conversation log.  The
`llm` collaborator is passed to `handle_user_query` as a behaviour function;
`memory` and `reflection_message` never influence the loop. -/
structure CommunicationAgent where
  tools : List (String × (String → ToolResponse))
  max_turns : Nat
  log_history : List LogMsg

/-- Python `tool_name in self.tools` / `self.tools[tool_name]` on the
name-keyed mapping. -/
def lookupTool (tools : List (String × (String → ToolResponse))) (name : String) :
    Option (String → ToolResponse) :=
  (tools.find? (fun t => t.1 = name)).map (fun t => t.2)

/-- How one `handle_user_query` call ends: a normal return of the final
answer, or an uncaught exception raised by `llm.invoke` (the one call of the
loop body outside the `try` block). -/
inductive LoopResult where
  | returned (answer : String)
  | raisedLLM (msg : String)
deriving DecidableEq, Repr

/-- Whether a loop result is a normal return. -/
def LoopResult.isReturned : LoopResult → Bool
  | LoopResult.returned _ => true
  | LoopResult.raisedLLM _ => false

/-- Observable outcome of one `handle_user_query` call: how it ended, the
final conversation log (which the code returns by reference as
`self.log_history`), and — as instrumentation — the number of `llm.invoke`
calls made and the list of tool invocations `(name, query)` performed. -/
structure RunOutcome where
  result : LoopResult
  history : List LogMsg
  llmCalls : Nat
  toolCalls : List (String × String)
deriving Repr

/-- The fixed budget-exhaustion fallback message. -/
def fallbackMessage : String :=
  "I" ++ sq ++ "m sorry, but I seem to be stuck. Could you please try rephrasing your request?"

/-- The error turn logged when the output matches neither grammar: the
`ValueError` message rendered into the `[Error]` turn. -/
def errorParseMsg : String :=
  "[Error]: Could not parse or execute tool. Error: Output does not match ANSWER: or TOOL: ... QUERY: ... format"

/-- The non-`ANSWER:` part of one loop iteration, after the Thought turn has
been logged: match the `TOOL:` pattern, dispatch, and log either the tool
result or the caught error; returns the extended log and tool-invocation
list.  All of this sits inside the `try` block, so a raising tool degrades
to a logged error turn. -/
def loopStepLog (tools : List (String × (String → ToolResponse)))
    (model_output : String) (hist : List LogMsg) (tcalls : List (String × String)) :
    List LogMsg × List (String × String) :=
  match searchTool model_output with
  | none => (hist ++ [LogMsg.aiMessage errorParseMsg], tcalls)
  | some (g1, g2) =>
    let tool_name := pythonStrip g1
    let tool_query := pythonStrip g2
    match lookupTool tools tool_name with
    | some tool =>
      let tcalls2 := tcalls ++ [(tool_name, tool_query)]
      match tool tool_query with
      | ToolResponse.exn m =>
          (hist ++ [LogMsg.aiMessage ("[Error]: Could not parse or execute tool. Error: " ++ m)],
           tcalls2)
      | resp =>
          (hist ++ [LogMsg.aiMessage
              ("[Tool Result for " ++ tool_name ++ "]: " ++ (responseStr resp).getD "")],
           tcalls2)
    | none =>
      (hist ++ [LogMsg.aiMessage ("[Error]: Attempted to use unknown tool: " ++ tool_name)], tcalls)

/-- The bounded decision loop of `handle_user_query`: `fuel` is the number
of remaining iterations (`max_turns` at the start), `calls` the number of
`llm.invoke` calls already made (used as the invocation index of the model
behaviour), `tcalls` the tool invocations so far.  Each iteration invokes
the model (an exception there propagates, uncaught), logs the Thought turn,
terminates on an `ANSWER:` marker, and otherwise runs the tool-dispatch
step and continues; an exhausted budget returns the fixed fallback
message. -/
def handleLoop (tools : List (String × (String → ToolResponse)))
    (llm : Nat → LLMResult) :
    Nat → List LogMsg → Nat → List (String × String) → RunOutcome
  | 0, hist, calls, tcalls =>
    ⟨LoopResult.returned fallbackMessage,
     hist ++ [LogMsg.aiMessage ("[Final Answer]: " ++ fallbackMessage)], calls, tcalls⟩
  | fuel + 1, hist, calls, tcalls =>
    match llm calls with
    | LLMResult.exn m => ⟨LoopResult.raisedLLM m, hist, calls + 1, tcalls⟩
    | LLMResult.ok content =>
      let model_output := pythonStrip content
      let hist1 := hist ++ [LogMsg.aiMessage ("[Thought]: " ++ model_output)]
      if hasSubstr "ANSWER:" model_output then
        let final_answer := pythonStrip (splitAfterFirst "ANSWER:" model_output)
        ⟨LoopResult.returned final_answer,
         hist1 ++ [LogMsg.aiMessage ("[Final Answer]: " ++ final_answer)], calls + 1, tcalls⟩
      else
        let next := loopStepLog tools model_output hist1 tcalls
        handleLoop tools llm fuel next.1 (calls + 1) next.2

/-- `CommunicationAgent.handle_user_query`: append the query as a user turn,
run the decision loop, and return the outcome together with the updated
agent.  The `history` field of the outcome equals the agent's final
`log_history` — the code returns `self.log_history` itself, not a copy. -/
def handle_user_query (agent : CommunicationAgent) (llm : Nat → LLMResult)
    (query : String) : RunOutcome × CommunicationAgent :=
  let hist := agent.log_history ++ [LogMsg.humanMessage query]
  let out := handleLoop agent.tools llm agent.max_turns hist 0 []
  (out, { agent with log_history := out.history })

/-- A retrieved `Document`: its text plus metadata (equality for
deduplication is exact `page_content` equality). -/
structure Document where
  page_content : String
  metadata : List (String × String)
deriving DecidableEq, Repr

/-- Result of one `retriever.invoke` call: a list of documents or a raised
exception. -/
inductive RetrieverResult where
  | ok (docs : List Document)
  | exn (msg : String)
deriving Repr

/-- A domain retriever handle: its mutable `search_kwargs` field and its
retrieval behaviour, which may depend on the current `search_kwargs` (the
`k` limit) and the query. -/
structure Retriever where
  search_kwargs : List (String × Nat)
  invokeFn : List (String × Nat) → String → RetrieverResult

/-- Result of one `reranker.rerank` call: the passage texts in relevance
order (the `result['text']` fields), or a raised exception. -/
inductive RerankResult where
  | ok (texts : List String)
  | exn (msg : String)
deriving Repr

/-- The `RetrievalAgent` state: the name-keyed domain retrievers, the
re-ranker handle (`none` when `Ranker(...)` raised in `__init__` and
re-ranking is skipped), and `top_k_rerank`.  The `llm` collaborator is
passed to `process_request` as a behaviour function; `memory`, the log and
the reflection string never influence control flow. -/
structure RetrievalAgent where
  retrievers : List (String × Retriever)
  reranker : Option (String → List String → RerankResult)
  top_k_rerank : Nat

/-- How one `process_request` call ends: the content of the returned
`AIMessage`, or an uncaught exception (neither the `rerank` call nor the
synthesis `llm.invoke` sits in a `try` block). -/
inductive PipelineResult where
  | returned (content : String)
  | raised (msg : String)
deriving DecidableEq, Repr

/-- Whether a pipeline result is an uncaught exception. -/
def PipelineResult.isRaised : PipelineResult → Bool
  | PipelineResult.returned _ => false
  | PipelineResult.raised _ => true

/-- Observable outcome of one `process_request` call: how it ended, plus —
as instrumentation — the number of `reranker.rerank` calls, the passage
lists handed to the re-ranker, the number of synthesis `llm.invoke` calls,
and the `top_docs_content` list reaching the rerank-empty check (`[]` when
the run ends before computing it). -/
structure PipelineRun where
  result : PipelineResult
  rerankCalls : Nat
  rerankPassages : List (List String)
  llmCalls : Nat
  topDocs : List String
deriving Repr

/-- One domain of the step-1 fetch loop of `process_request`: set the
handle's `search_kwargs` to `{'k': 25}`, invoke it, extend the accumulated
document list on success and skip the domain on a raised exception, keeping
the (mutated) handle either way. -/
def fetchStep (query : String) (acc : List Document × List (String × Retriever))
    (entry : String × Retriever) : List Document × List (String × Retriever) :=
  let r : Retriever := { entry.2 with search_kwargs := [("k", 25)] }
  match r.invokeFn r.search_kwargs query with
  | RetrieverResult.ok docs => (acc.1 ++ docs, acc.2 ++ [(entry.1, r)])
  | RetrieverResult.exn _ => (acc.1, acc.2 ++ [(entry.1, r)])

/-- Step 1 of `process_request`: fold `fetchStep` over the retrievers in
mapping order, returning the aggregated documents together with the
(mutated) retriever handles. -/
def fetch_all_docs (retrievers : List (String × Retriever)) (query : String) :
    List Document × List (String × Retriever) :=
  retrievers.foldl (fetchStep query) ([], [])

/-- One insertion into the Python dict comprehension
`{doc.page_content: doc for doc in all_docs}`: an existing key keeps its
position but its value is overwritten; a new key is appended. -/
def dictInsert (m : List (String × Document)) (d : Document) :
    List (String × Document) :=
  if m.any (fun kv => kv.1 = d.page_content) then
    m.map (fun kv => if kv.1 = d.page_content then (kv.1, d) else kv)
  else m ++ [(d.page_content, d)]

/-- The dedup step `list({doc.page_content: doc for doc in all_docs}.values())`:
one document per distinct text, keys in first-occurrence order, the
last-seen document winning for each text. -/
def dedupByContent (docs : List Document) : List Document :=
  (docs.foldl dictInsert []).map (fun kv => kv.2)

/-- Python `s.lower()` (character-wise). -/
def pyLower (s : String) : String :=
  String.mk (s.data.map Char.toLower)

/-- The `AIMessage` content returned when the initial fetch finds nothing. -/
def noInfoFetchMsg : String :=
  "NO_INFO_FOUND: No documents were found in the initial fetch."

/-- The `AIMessage` content returned when the top document list is empty. -/
def noInfoRerankMsg : String :=
  "NO_INFO_FOUND: Re-ranking did not find any relevant documents."

/-- The synthesis prompt built from the query and the joined top-document
context. -/
def summary_prompt (query context : String) : String :=
  "You are a helpful assistant. Based ONLY on the following highly relevant documents, provide a direct and concise answer to the user" ++ sq ++ "s original query.\n\n        User" ++ sq ++ "s Original Query: \"" ++ query ++ "\"\n\n        Retrieved Documents:\n        ---\n        " ++ context ++ "\n        ---\n\n        If the documents contain the answer, extract it precisely. If they do not, respond with exactly \"NO_INFO_FOUND\".\n        "

/-- Step 3 of `process_request` (from the rerank-empty check on): return the
negative sentinel if `top_docs_content` is empty, otherwise join the top
documents into a context, invoke the model once (an exception there
propagates, uncaught), and return `NO_INFO_FOUND` when the response contains
the sentinel case-insensitively, the stripped summary otherwise. -/
def synthesize (agent : RetrievalAgent) (llm : String → LLMResult) (query : String)
    (top_docs_content : List String) (rerankCalls : Nat)
    (rerankPassages : List (List String)) : PipelineRun × RetrievalAgent :=
  if top_docs_content.isEmpty then
    (⟨PipelineResult.returned noInfoRerankMsg, rerankCalls, rerankPassages, 0,
      top_docs_content⟩, agent)
  else
    let context := String.intercalate "\n\n---\n\n" top_docs_content
    match llm (summary_prompt query context) with
    | LLMResult.exn m =>
        (⟨PipelineResult.raised m, rerankCalls, rerankPassages, 1, top_docs_content⟩, agent)
    | LLMResult.ok content =>
        let summary := pythonStrip content
        if hasSubstr "no_info_found" (pyLower summary) then
          (⟨PipelineResult.returned "NO_INFO_FOUND", rerankCalls, rerankPassages, 1,
            top_docs_content⟩, agent)
        else
          (⟨PipelineResult.returned summary, rerankCalls, rerankPassages, 1,
            top_docs_content⟩, agent)

/-- `RetrievalAgent.process_request`: fetch from every domain (mutating each
retriever's `search_kwargs`), return the no-candidates sentinel if nothing
was fetched, dedup by text, then re-rank — calling the re-ranker when one
was initialized (an exception there propagates, uncaught) and falling back
to the first `top_k_rerank` unique documents in aggregation order only when
`__init__` left `reranker` as `None` — and finally synthesize. -/
def process_request (agent : RetrievalAgent) (llm : String → LLMResult)
    (query : String) : PipelineRun × RetrievalAgent :=
  let fetched := fetch_all_docs agent.retrievers query
  let all_docs := fetched.1
  let agent1 : RetrievalAgent := { agent with retrievers := fetched.2 }
  if all_docs.isEmpty then
    (⟨PipelineResult.returned noInfoFetchMsg, 0, [], 0, []⟩, agent1)
  else
    let unique_docs := dedupByContent all_docs
    match agent1.reranker with
    | some rerank =>
      let passages := unique_docs.map (fun d => d.page_content)
      match rerank query passages with
      | RerankResult.exn m =>
          (⟨PipelineResult.raised m, 1, [passages], 0, []⟩, agent1)
      | RerankResult.ok results =>
          synthesize agent1 llm query (results.take agent1.top_k_rerank) 1 [passages]
    | none =>
      synthesize agent1 llm query
        ((unique_docs.map (fun d => d.page_content)).take agent1.top_k_rerank) 0 []

/-! ### Structural lemmas about the decision loop -/

theorem loopStepLog_fst (tools : List (String × (String → ToolResponse)))
    (model_output : String) (hist : List LogMsg) (tcalls : List (String × String)) :
    ∃ msg, (loopStepLog tools model_output hist tcalls).1 = hist ++ [msg] := by
  unfold loopStepLog
  rcases hs : searchTool model_output with _ | ⟨g1, g2⟩
  · exact ⟨_, rfl⟩
  · simp only
    rcases hl : lookupTool tools (pythonStrip g1) with _ | tool
    · exact ⟨_, rfl⟩
    · simp only
      rcases hr : tool (pythonStrip g2) with c | entries | t | m
      all_goals exact ⟨_, rfl⟩

theorem loopStepLog_snd_len (tools : List (String × (String → ToolResponse)))
    (model_output : String) (hist : List LogMsg) (tcalls : List (String × String)) :
    (loopStepLog tools model_output hist tcalls).2.length ≤ tcalls.length + 1 := by
  unfold loopStepLog
  rcases hs : searchTool model_output with _ | ⟨g1, g2⟩
  · simp
  · simp only
    rcases hl : lookupTool tools (pythonStrip g1) with _ | tool
    · simp
    · simp only
      rcases hr : tool (pythonStrip g2) with c | entries | t | m
      all_goals simp

theorem handleLoop_llmCalls_le (tools : List (String × (String → ToolResponse)))
    (llm : Nat → LLMResult) :
    ∀ fuel hist calls tcalls,
      (handleLoop tools llm fuel hist calls tcalls).llmCalls ≤ calls + fuel := by
  intro fuel
  induction fuel with
  | zero => intro hist calls tcalls; simp [handleLoop]
  | succ f ih =>
    intro hist calls tcalls
    rw [handleLoop]
    rcases hc : llm calls with content | m
    · simp only
      by_cases hA : hasSubstr "ANSWER:" (pythonStrip content) = true
      · simp only [hA, if_true]
        omega
      · simp only [hA, if_false, Bool.false_eq_true]
        have := ih (loopStepLog tools (pythonStrip content)
            (hist ++ [LogMsg.aiMessage ("[Thought]: " ++ pythonStrip content)]) tcalls).1
          (calls + 1)
          (loopStepLog tools (pythonStrip content)
            (hist ++ [LogMsg.aiMessage ("[Thought]: " ++ pythonStrip content)]) tcalls).2
        omega
    · simp only
      omega

theorem handleLoop_history_extends (tools : List (String × (String → ToolResponse)))
    (llm : Nat → LLMResult) :
    ∀ fuel hist calls tcalls,
      ∃ t, (handleLoop tools llm fuel hist calls tcalls).history = hist ++ t := by
  intro fuel
  induction fuel with
  | zero => intro hist calls tcalls; exact ⟨_, rfl⟩
  | succ f ih =>
    intro hist calls tcalls
    rw [handleLoop]
    rcases hc : llm calls with content | m
    · simp only
      by_cases hA : hasSubstr "ANSWER:" (pythonStrip content) = true
      · simp only [hA, if_true]
        exact ⟨_, by rw [List.append_assoc]⟩
      · simp only [hA, if_false, Bool.false_eq_true]
        set hist1 := hist ++ [LogMsg.aiMessage ("[Thought]: " ++ pythonStrip content)] with hh1
        obtain ⟨msg, hmsg⟩ := loopStepLog_fst tools (pythonStrip content) hist1 tcalls
        obtain ⟨t, ht⟩ := ih (loopStepLog tools (pythonStrip content) hist1 tcalls).1 (calls + 1)
          (loopStepLog tools (pythonStrip content) hist1 tcalls).2
        refine ⟨[LogMsg.aiMessage ("[Thought]: " ++ pythonStrip content)] ++ [msg] ++ t, ?_⟩
        rw [ht, hmsg, hh1]
        simp [List.append_assoc]
    · exact ⟨[], by simp⟩

theorem handleLoop_returns_of_llm_ok (tools : List (String × (String → ToolResponse)))
    (llm : Nat → LLMResult) (hok : ∀ i, ∃ s, llm i = LLMResult.ok s) :
    ∀ fuel hist calls tcalls,
      (handleLoop tools llm fuel hist calls tcalls).result.isReturned = true := by
  intro fuel
  induction fuel with
  | zero => intro hist calls tcalls; rfl
  | succ f ih =>
    intro hist calls tcalls
    rw [handleLoop]
    obtain ⟨s, hs⟩ := hok calls
    rw [hs]
    simp only
    by_cases hA : hasSubstr "ANSWER:" (pythonStrip s) = true
    · simp only [hA, if_true]
      rfl
    · simp only [hA, if_false, Bool.false_eq_true]
      exact ih _ _ _

theorem handleLoop_answer (tools : List (String × (String → ToolResponse)))
    (llm : Nat → LLMResult) (outs : Nat → String)
    (hok : ∀ j, llm j = LLMResult.ok (outs j)) :
    ∀ i fuel hist calls tcalls, i < fuel →
      hasSubstr "ANSWER:" (pythonStrip (outs (calls + i))) = true →
      (∀ j, j < i → hasSubstr "ANSWER:" (pythonStrip (outs (calls + j))) = false) →
      (handleLoop tools llm fuel hist calls tcalls).result
          = LoopResult.returned
              (pythonStrip (splitAfterFirst "ANSWER:" (pythonStrip (outs (calls + i)))))
        ∧ (handleLoop tools llm fuel hist calls tcalls).llmCalls = calls + i + 1
        ∧ (handleLoop tools llm fuel hist calls tcalls).toolCalls.length
            ≤ tcalls.length + i := by
  intro i
  induction i with
  | zero =>
    intro fuel hist calls tcalls hlt hA _
    match fuel, hlt with
    | f + 1, _ =>
      rw [handleLoop, hok calls]
      simp only [Nat.add_zero] at hA ⊢
      simp only [hA, if_true]
      exact ⟨trivial, trivial, by omega⟩
  | succ n ih =>
    intro fuel hist calls tcalls hlt hA hfirst
    match fuel, hlt with
    | f + 1, _ =>
      rw [handleLoop, hok calls]
      have h0 : hasSubstr "ANSWER:" (pythonStrip (outs calls)) = false := by
        have := hfirst 0 (Nat.succ_pos n)
        simpa using this
      simp only [h0, Bool.false_eq_true, if_false]
      have harith : calls + 1 + n = calls + (n + 1) := by omega
      have hA' : hasSubstr "ANSWER:" (pythonStrip (outs (calls + 1 + n))) = true := by
        rw [harith]; exact hA
      have hfirst' : ∀ j, j < n →
          hasSubstr "ANSWER:" (pythonStrip (outs (calls + 1 + j))) = false := by
        intro j hj
        have : calls + 1 + j = calls + (j + 1) := by omega
        rw [this]
        exact hfirst (j + 1) (by omega)
      obtain ⟨h1, h2, h3⟩ := ih f
        (loopStepLog tools (pythonStrip (outs calls))
          (hist ++ [LogMsg.aiMessage ("[Thought]: " ++ pythonStrip (outs calls))]) tcalls).1
        (calls + 1)
        (loopStepLog tools (pythonStrip (outs calls))
          (hist ++ [LogMsg.aiMessage ("[Thought]: " ++ pythonStrip (outs calls))]) tcalls).2
        (by omega) hA' hfirst'
      rw [harith] at h1 h2
      refine ⟨h1, by omega, ?_⟩
      have hlen := loopStepLog_snd_len tools (pythonStrip (outs calls))
        (hist ++ [LogMsg.aiMessage ("[Thought]: " ++ pythonStrip (outs calls))]) tcalls
      omega

theorem handleLoop_step_answer (tools : List (String × (String → ToolResponse)))
    (llm : Nat → LLMResult) (fuel : Nat) (hist : List LogMsg) (calls : Nat)
    (tcalls : List (String × String)) (out : String)
    (hllm : llm calls = LLMResult.ok out)
    (hA : hasSubstr "ANSWER:" (pythonStrip out) = true) :
    handleLoop tools llm (fuel + 1) hist calls tcalls
      = ⟨LoopResult.returned (pythonStrip (splitAfterFirst "ANSWER:" (pythonStrip out))),
         hist ++ [LogMsg.aiMessage ("[Thought]: " ++ pythonStrip out)]
              ++ [LogMsg.aiMessage ("[Final Answer]: "
                   ++ pythonStrip (splitAfterFirst "ANSWER:" (pythonStrip out)))],
         calls + 1, tcalls⟩ := by
  rw [handleLoop, hllm]
  simp only [hA, if_true]

/-! ### Claims about the decision loop -/

/-- Claim C4: for every query and every behaviour of the language model and
tools — including behaviours that never produce an `ANSWER:` marker and
ones that raise — `handle_user_query` makes at most `max_turns`
language-model invocations in its decision loop (it terminates by
construction, being defined by structural recursion on the budget). -/
theorem claim_C4_turn_bound (agent : CommunicationAgent) (llm : Nat → LLMResult)
    (query : String) :
    (handle_user_query agent llm query).1.llmCalls ≤ agent.max_turns := by
  have h := handleLoop_llmCalls_le agent.tools llm agent.max_turns
    (agent.log_history ++ [LogMsg.humanMessage query]) 0 []
  simpa [handle_user_query] using h

/-- Claim C3: if the model never raises and its output on iteration `i`
(within budget) is the first containing the case-sensitive marker
`ANSWER:`, then `handle_user_query` terminates on that exact iteration —
with `i + 1` model invocations in total and no tool invocation on that
iteration — and returns the text after the first `ANSWER:` occurrence
trimmed of surrounding whitespace. -/
theorem claim_C3_answer_terminates (agent : CommunicationAgent)
    (llm : Nat → LLMResult) (query : String) (outs : Nat → String)
    (hok : ∀ j, llm j = LLMResult.ok (outs j))
    (i : Nat) (hi : i < agent.max_turns)
    (hA : hasSubstr "ANSWER:" (pythonStrip (outs i)) = true)
    (hfirst : ∀ j, j < i → hasSubstr "ANSWER:" (pythonStrip (outs j)) = false) :
    (handle_user_query agent llm query).1.result
        = LoopResult.returned (pythonStrip (splitAfterFirst "ANSWER:" (pythonStrip (outs i))))
      ∧ (handle_user_query agent llm query).1.llmCalls = i + 1
      ∧ (handle_user_query agent llm query).1.toolCalls.length ≤ i := by
  have h := handleLoop_answer agent.tools llm outs hok i agent.max_turns
    (agent.log_history ++ [LogMsg.humanMessage query]) 0 [] hi
    (by simpa using hA) (by intro j hj; simpa using hfirst j hj)
  simpa [handle_user_query] using h

/-- Concrete instance of C3: the model first replies with plain chatter,
then with `ANSWER: 42` on iteration 1; the loop stops there with two model
invocations and returns `42`. -/
def c3Outs : Nat → String := fun j => if j = 0 then "hello there" else "  ANSWER: 42  "

/-- The model behaviour realizing `c3Outs` without raising. -/
def c3LLM : Nat → LLMResult := fun j => LLMResult.ok (c3Outs j)

/-- An agent with no registered tools and the default budget of 5. -/
def c3Agent : CommunicationAgent := ⟨[], 5, []⟩

/-- Witness for C3 at the concrete input `c3Agent`, `c3LLM`, iteration 1. -/
theorem claim_C3_witness :
    (handle_user_query c3Agent c3LLM "hi").1.result
        = LoopResult.returned (pythonStrip (splitAfterFirst "ANSWER:" (pythonStrip (c3Outs 1))))
      ∧ (handle_user_query c3Agent c3LLM "hi").1.llmCalls = 1 + 1
      ∧ (handle_user_query c3Agent c3LLM "hi").1.toolCalls.length ≤ 1 :=
  claim_C3_answer_terminates c3Agent c3LLM "hi" c3Outs (fun _ => rfl) 1 (by decide)
    (by decide) (by intro j hj; have hj0 : j = 0 := Nat.lt_one_iff.mp hj; rw [hj0]; decide)

/-- Claim C10: when a model output contains both the `ANSWER:` marker and a
well-formed `TOOL: name QUERY: text` pattern, the answer branch takes
priority — the `ANSWER:` check runs before the tool regex — so on such an
output (here: the first iteration) the loop terminates with the extracted
answer and invokes no tool at all. -/
theorem claim_C10_answer_priority (agent : CommunicationAgent)
    (llm : Nat → LLMResult) (query : String) (out nm q : String)
    (hmax : 0 < agent.max_turns)
    (hllm : llm 0 = LLMResult.ok out)
    (hA : hasSubstr "ANSWER:" (pythonStrip out) = true)
    (hT : searchTool (pythonStrip out) = some (nm, q)) :
    (handle_user_query agent llm query).1.result
        = LoopResult.returned (pythonStrip (splitAfterFirst "ANSWER:" (pythonStrip out)))
      ∧ (handle_user_query agent llm query).1.llmCalls = 1
      ∧ (handle_user_query agent llm query).1.toolCalls = [] := by
  obtain ⟨f, hf⟩ : ∃ f, agent.max_turns = f + 1 :=
    ⟨agent.max_turns - 1, by omega⟩
  have hstep := handleLoop_step_answer agent.tools llm f
    (agent.log_history ++ [LogMsg.humanMessage query]) 0 [] out hllm hA
  have hrun : (handle_user_query agent llm query).1
      = ⟨LoopResult.returned (pythonStrip (splitAfterFirst "ANSWER:" (pythonStrip out))),
         agent.log_history ++ [LogMsg.humanMessage query]
           ++ [LogMsg.aiMessage ("[Thought]: " ++ pythonStrip out)]
           ++ [LogMsg.aiMessage ("[Final Answer]: "
                ++ pythonStrip (splitAfterFirst "ANSWER:" (pythonStrip out)))],
         0 + 1, []⟩ := by
    show handleLoop agent.tools llm agent.max_turns
        (agent.log_history ++ [LogMsg.humanMessage query]) 0 [] = _
    rw [hf]
    exact hstep
  rw [hrun]
  exact ⟨rfl, rfl, rfl⟩

/-- An agent that does register the tool named `t`, to show C10 skips even a
registered, matchable tool. -/
def c10Agent : CommunicationAgent :=
  ⟨[("t", fun _ => ToolResponse.plain "tool ran")], 5, []⟩

/-- A model output containing both grammars at once. -/
def c10Out : String := "ANSWER: yes TOOL: t QUERY: q42"

/-- The model behaviour that always emits `c10Out`. -/
def c10LLM : Nat → LLMResult := fun _ => LLMResult.ok c10Out

/-- Witness for C10 at the concrete input `c10Agent`, `c10LLM`. -/
theorem claim_C10_witness :
    (handle_user_query c10Agent c10LLM "hi").1.result
        = LoopResult.returned (pythonStrip (splitAfterFirst "ANSWER:" (pythonStrip c10Out)))
      ∧ (handle_user_query c10Agent c10LLM "hi").1.llmCalls = 1
      ∧ (handle_user_query c10Agent c10LLM "hi").1.toolCalls = [] :=
  claim_C10_answer_priority c10Agent c10LLM "hi" c10Out "t" "q42" (by decide) rfl
    (by decide) (by decide)

/-- An agent with no registered tools and budget 3, as in the C5 scenario. -/
def c5Agent : CommunicationAgent := ⟨[], 3, []⟩

/-- A model that always asks for the unregistered tool `ticket_tool`. -/
def c5LLM : Nat → LLMResult := fun _ => LLMResult.ok "TOOL: ticket_tool QUERY: NCX-1"

/-- Claim C5: with budget 3 and a model that always replies
`TOOL: ticket_tool QUERY: NCX-1` while no tool named `ticket_tool` is
registered, the loop consumes all 3 turns, logs exactly 3 unknown-tool
error turns, performs no tool invocation, never raises to the caller, and
returns exactly the fixed exhaustion fallback message. -/
theorem claim_C5_unknown_tool_exhaustion :
    (handle_user_query c5Agent c5LLM "Look up ticket NCX-1").1.result
        = LoopResult.returned fallbackMessage
      ∧ (handle_user_query c5Agent c5LLM "Look up ticket NCX-1").1.llmCalls = 3
      ∧ (handle_user_query c5Agent c5LLM "Look up ticket NCX-1").1.toolCalls = []
      ∧ ((handle_user_query c5Agent c5LLM "Look up ticket NCX-1").1.history.count
          (LogMsg.aiMessage "[Error]: Attempted to use unknown tool: ticket_tool")) = 3 := by
  decide

/-- An agent for the C1 counterexample (no tools, default budget). -/
def c1Agent : CommunicationAgent := ⟨[], 5, []⟩

/-- A model whose `invoke` raises a transport error on every call. -/
def c1LLM : Nat → LLMResult := fun _ => LLMResult.exn "connection error"

/-- Counterexample to C1: when `llm.invoke` raises on the first iteration,
`handle_user_query` does not return an (answer, history) pair — the
exception escapes, because `self.llm.invoke(prompt)` sits outside the
`try` block — and no error turn is logged for it. -/
theorem claim_C1_counterexample :
    (handle_user_query c1Agent c1LLM "hello").1.result
        = LoopResult.raisedLLM "connection error"
      ∧ (handle_user_query c1Agent c1LLM "hello").1.result.isReturned = false := by
  decide

/-- Claim C1 as amended: exceptions raised inside the tool-dispatch `try`
block (parse failures, unknown tools, raising tools) are caught and
converted into logged error turns, and `handle_user_query` returns an
(answer, history) pair whenever `llm.invoke` itself never raises; an
exception from `llm.invoke`, however, propagates to the caller. -/
theorem claim_C1_amended (agent : CommunicationAgent) (llm : Nat → LLMResult)
    (query : String) (hok : ∀ i, ∃ s, llm i = LLMResult.ok s) :
    (handle_user_query agent llm query).1.result.isReturned = true := by
  have h := handleLoop_returns_of_llm_ok agent.tools llm hok agent.max_turns
    (agent.log_history ++ [LogMsg.humanMessage query]) 0 []
  simpa [handle_user_query] using h

/-- An agent whose single registered tool always raises. -/
def c1wAgent : CommunicationAgent :=
  ⟨[("boomtool", fun _ => ToolResponse.exn "tool blew up")], 2, []⟩

/-- A model that always dispatches to the raising tool. -/
def c1wLLM : Nat → LLMResult := fun _ => LLMResult.ok "TOOL: boomtool QUERY: x"

/-- Witness for the amended C1: even with a tool that raises on every
invocation, the session ends in a normal return. -/
theorem claim_C1_witness :
    (handle_user_query c1wAgent c1wLLM "hi").1.result.isReturned = true :=
  claim_C1_amended c1wAgent c1wLLM "hi" (fun _ => ⟨"TOOL: boomtool QUERY: x", rfl⟩)

/-- The conversation log of the agent only ever grows across a
`handle_user_query` call: the log before the call is a strict prefix of the
log after it. -/
theorem handle_log_grows (agent : CommunicationAgent) (llm : Nat → LLMResult)
    (q : String) :
    agent.log_history <+: (handle_user_query agent llm q).2.log_history
    ∧ agent.log_history.length < (handle_user_query agent llm q).2.log_history.length := by
  unfold handle_user_query
  simp only
  obtain ⟨t, ht⟩ := handleLoop_history_extends agent.tools llm agent.max_turns
    (agent.log_history ++ [LogMsg.humanMessage q]) 0 []
  rw [ht]
  constructor
  · exact ⟨[LogMsg.humanMessage q] ++ t, by simp⟩
  · simp

/-- The model used for the C9 counterexample: it answers immediately. -/
def c9LLM : Nat → LLMResult := fun _ => LLMResult.ok "ANSWER: done"

/-- A fresh agent for the C9 counterexample. -/
def c9Agent : CommunicationAgent := ⟨[], 5, []⟩

/-- Counterexample to C9: the history handed back by the first
`handle_user_query` call is `self.log_history` itself (first conjunct:
returned history and post-call agent log coincide), and a second
`handle_user_query` call on the same agent appends to that same log — the
log after the second call strictly extends, and so differs from, the
history returned by the first call.  Since Python returns the list by
reference, the returned history is mutated after the session ends. -/
theorem claim_C9_counterexample :
    ((handle_user_query c9Agent c9LLM "first").1.history
        = (handle_user_query c9Agent c9LLM "first").2.log_history)
      ∧ ((handle_user_query (handle_user_query c9Agent c9LLM "first").2 c9LLM "second").2.log_history
          ≠ (handle_user_query c9Agent c9LLM "first").1.history)
      ∧ (((handle_user_query c9Agent c9LLM "first").1.history).isPrefixOf
          ((handle_user_query (handle_user_query c9Agent c9LLM "first").2 c9LLM "second").2.log_history)
          = true) := by
  decide

/-- Claim C9 as amended: the history returned by `handle_user_query` is the
agent's live `log_history` (returned by reference, not copied), and it is
never cleared: any later `handle_user_query` call on the same agent appends
to it, so the log after the later call strictly extends — and therefore
differs from — the history handed back earlier. -/
theorem claim_C9_amended (agent : CommunicationAgent) (llm1 llm2 : Nat → LLMResult)
    (q1 q2 : String) :
    ((handle_user_query agent llm1 q1).1.history
        = (handle_user_query agent llm1 q1).2.log_history)
      ∧ ((handle_user_query agent llm1 q1).2.log_history
          <+: (handle_user_query (handle_user_query agent llm1 q1).2 llm2 q2).2.log_history)
      ∧ ((handle_user_query agent llm1 q1).2.log_history
          ≠ (handle_user_query (handle_user_query agent llm1 q1).2 llm2 q2).2.log_history) := by
  refine ⟨rfl, (handle_log_grows _ llm2 q2).1, fun heq => ?_⟩
  have h := (handle_log_grows (handle_user_query agent llm1 q1).2 llm2 q2).2
  rw [← heq] at h
  omega

/-! ### Structural lemmas about the retrieval pipeline -/

theorem foldl_fetchStep_snd (query : String) :
    ∀ (rs : List (String × Retriever)) (acc : List Document × List (String × Retriever)),
      (rs.foldl (fetchStep query) acc).2
        = acc.2 ++ rs.map (fun e => (e.1, { e.2 with search_kwargs := [("k", 25)] })) := by
  intro rs
  induction rs with
  | nil => intro acc; simp
  | cons e rs ih =>
    intro acc
    rw [List.foldl_cons, ih]
    have hstep : (fetchStep query acc e).2
        = acc.2 ++ [(e.1, { e.2 with search_kwargs := [("k", 25)] })] := by
      unfold fetchStep
      rcases h : e.2.invokeFn [("k", 25)] query with docs | m <;> simp [h]
    rw [hstep]
    simp [List.append_assoc]

theorem foldl_fetchStep_fst_nil (query : String) :
    ∀ (rs : List (String × Retriever)) (acc : List Document × List (String × Retriever)),
      (∀ e ∈ rs, e.2.invokeFn [("k", 25)] query = RetrieverResult.ok []
          ∨ ∃ m, e.2.invokeFn [("k", 25)] query = RetrieverResult.exn m) →
      (rs.foldl (fetchStep query) acc).1 = acc.1 := by
  intro rs
  induction rs with
  | nil => intro acc _; rfl
  | cons e rs ih =>
    intro acc hall
    rw [List.foldl_cons]
    have hstep : (fetchStep query acc e).1 = acc.1 := by
      unfold fetchStep
      rcases hall e (List.mem_cons_self e rs) with hok | ⟨m, hexn⟩
      · simp [hok]
      · simp only [hexn]
    rw [ih (fetchStep query acc e) (fun x hx => hall x (List.mem_cons_of_mem e hx)), hstep]

theorem synthesize_snd (agent : RetrievalAgent) (llm : String → LLMResult)
    (query : String) (tops : List String) (rc : Nat) (rp : List (List String)) :
    (synthesize agent llm query tops rc rp).2 = agent := by
  unfold synthesize
  by_cases he : tops.isEmpty = true
  · simp [he]
  · rcases h : llm (summary_prompt query (String.intercalate "\n\n---\n\n" tops))
        with content | m
    · by_cases hs : hasSubstr "no_info_found" (pyLower (pythonStrip content)) = true
      · simp [he, h, hs]
      · simp [he, h, hs]
    · simp [he, h]

theorem fetch_all_docs_snd (retrievers : List (String × Retriever)) (query : String) :
    (fetch_all_docs retrievers query).2
      = retrievers.map (fun e => (e.1, { e.2 with search_kwargs := [("k", 25)] })) := by
  unfold fetch_all_docs
  rw [foldl_fetchStep_snd]
  rfl

theorem process_request_snd (agent : RetrievalAgent) (llm : String → LLMResult)
    (query : String) :
    (process_request agent llm query).2
      = { agent with retrievers := (fetch_all_docs agent.retrievers query).2 } := by
  unfold process_request
  by_cases hfe : (fetch_all_docs agent.retrievers query).1.isEmpty = true
  · simp [hfe]
  · rcases hr : agent.reranker with _ | rerank
    · simp [hfe, hr, synthesize_snd]
    · rcases hrr : rerank query ((dedupByContent
          (fetch_all_docs agent.retrievers query).1).map (fun d => d.page_content))
          with texts | m
      · simp [hfe, hr, hrr, synthesize_snd]
      · simp [hfe, hr, hrr]

theorem dictInsert_ne_nil (m : List (String × Document)) (d : Document) :
    dictInsert m d ≠ [] := by
  unfold dictInsert
  split
  case isTrue hc =>
    intro h
    have hm : m = [] := List.map_eq_nil_iff.mp h
    rw [hm] at hc
    simp at hc
  case isFalse hc => simp

theorem foldl_dictInsert_ne_nil :
    ∀ (docs : List Document) (m : List (String × Document)),
      m ≠ [] → docs.foldl dictInsert m ≠ [] := by
  intro docs
  induction docs with
  | nil => intro m hm; exact hm
  | cons d ds ih => intro m _; exact ih (dictInsert m d) (dictInsert_ne_nil m d)

theorem dedupByContent_ne_nil (docs : List Document) (h : docs ≠ []) :
    dedupByContent docs ≠ [] := by
  match docs, h with
  | d :: ds, _ =>
    unfold dedupByContent
    intro hmap
    exact foldl_dictInsert_ne_nil ds (dictInsert [] d) (dictInsert_ne_nil [] d)
      (by simpa using List.map_eq_nil_iff.mp hmap)

theorem dictInsert_keys_of_any (m : List (String × Document)) (d : Document)
    (hc : m.any (fun kv => kv.1 = d.page_content) = true) :
    (dictInsert m d).map Prod.fst = m.map Prod.fst := by
  unfold dictInsert
  rw [if_pos hc, List.map_map]
  apply List.map_congr_left
  intro kv _
  by_cases h : kv.1 = d.page_content <;> simp [h]

theorem dictInsert_keys_of_not_any (m : List (String × Document)) (d : Document)
    (hc : m.any (fun kv => kv.1 = d.page_content) = false) :
    (dictInsert m d).map Prod.fst = m.map Prod.fst ++ [d.page_content] := by
  unfold dictInsert
  rw [if_neg (by simp [hc]), List.map_append]
  rfl

theorem mem_keys_dictInsert (m : List (String × Document)) (d : Document) (t : String) :
    t ∈ (dictInsert m d).map Prod.fst ↔ t ∈ m.map Prod.fst ∨ t = d.page_content := by
  rcases hc : m.any (fun kv => kv.1 = d.page_content) with _ | _
  · rw [dictInsert_keys_of_not_any m d hc]
    simp
  · rw [dictInsert_keys_of_any m d hc]
    constructor
    · exact Or.inl
    · rintro (h | rfl)
      · exact h
      · obtain ⟨kv, hkv, heq⟩ := List.any_eq_true.mp hc
        exact List.mem_map.mpr ⟨kv, hkv, of_decide_eq_true heq⟩

theorem keys_nodup_dictInsert (m : List (String × Document)) (d : Document)
    (h : (m.map Prod.fst).Nodup) : ((dictInsert m d).map Prod.fst).Nodup := by
  rcases hc : m.any (fun kv => kv.1 = d.page_content) with _ | _
  · rw [dictInsert_keys_of_not_any m d hc]
    have hpc : d.page_content ∉ m.map Prod.fst := by
      intro hm
      obtain ⟨kv, hkv, heq⟩ := List.mem_map.mp hm
      have : m.any (fun kv => kv.1 = d.page_content) = true :=
        List.any_eq_true.mpr ⟨kv, hkv, decide_eq_true heq⟩
      rw [hc] at this
      cases this
    rw [List.nodup_append]
    exact ⟨h, List.nodup_singleton _, by
      intro a ha hb
      rw [List.mem_singleton] at hb
      subst hb
      exact hpc ha⟩
  · rw [dictInsert_keys_of_any m d hc]
    exact h

theorem foldl_keys_nodup :
    ∀ (docs : List Document) (m : List (String × Document)),
      (m.map Prod.fst).Nodup → ((docs.foldl dictInsert m).map Prod.fst).Nodup := by
  intro docs
  induction docs with
  | nil => intro m hm; exact hm
  | cons d ds ih =>
    intro m hm
    exact ih (dictInsert m d) (keys_nodup_dictInsert m d hm)

theorem mem_foldl_keys :
    ∀ (docs : List Document) (m : List (String × Document)) (t : String),
      t ∈ (docs.foldl dictInsert m).map Prod.fst
        ↔ t ∈ m.map Prod.fst ∨ t ∈ docs.map (fun d => d.page_content) := by
  intro docs
  induction docs with
  | nil => intro m t; simp
  | cons d ds ih =>
    intro m t
    rw [List.foldl_cons, ih (dictInsert m d) t, mem_keys_dictInsert]
    simp only [List.map_cons, List.mem_cons]
    tauto

theorem dictInsert_snd_fst (m : List (String × Document)) (d : Document)
    (h : ∀ kv ∈ m, kv.1 = kv.2.page_content) :
    ∀ kv ∈ dictInsert m d, kv.1 = kv.2.page_content := by
  intro kv hkv
  unfold dictInsert at hkv
  by_cases hc : m.any (fun kv => kv.1 = d.page_content) = true
  · rw [if_pos hc] at hkv
    obtain ⟨kv0, hkv0, heq⟩ := List.mem_map.mp hkv
    by_cases h0 : kv0.1 = d.page_content
    · rw [if_pos h0] at heq
      rw [← heq, h0]
    · rw [if_neg h0] at heq
      rw [← heq]
      exact h kv0 hkv0
  · rw [if_neg hc] at hkv
    rcases List.mem_append.mp hkv with hin | hone
    · exact h kv hin
    · rw [List.mem_singleton] at hone
      rw [hone]

theorem foldl_snd_fst :
    ∀ (docs : List Document) (m : List (String × Document)),
      (∀ kv ∈ m, kv.1 = kv.2.page_content) →
      ∀ kv ∈ docs.foldl dictInsert m, kv.1 = kv.2.page_content := by
  intro docs
  induction docs with
  | nil => intro m hm; exact hm
  | cons d ds ih =>
    intro m hm
    exact ih (dictInsert m d) (dictInsert_snd_fst m d hm)

theorem dedup_texts_eq_keys (docs : List Document) :
    (dedupByContent docs).map (fun d => d.page_content)
      = (docs.foldl dictInsert []).map Prod.fst := by
  unfold dedupByContent
  rw [List.map_map]
  apply List.map_congr_left
  intro kv hkv
  exact (foldl_snd_fst docs [] (by simp) kv hkv).symm

theorem synthesize_ok (agent : RetrievalAgent) (llm : String → LLMResult)
    (query : String) (tops : List String) (rc : Nat) (rp : List (List String))
    (hne : tops ≠ []) (hllm : ∀ p, ∃ s, llm p = LLMResult.ok s) :
    (synthesize agent llm query tops rc rp).1.rerankCalls = rc
      ∧ (synthesize agent llm query tops rc rp).1.topDocs = tops
      ∧ (synthesize agent llm query tops rc rp).1.llmCalls = 1
      ∧ (synthesize agent llm query tops rc rp).1.result.isRaised = false := by
  unfold synthesize
  have he : tops.isEmpty = false := by
    cases tops with
    | nil => exact absurd rfl hne
    | cons a l => rfl
  obtain ⟨s, hs⟩ := hllm (summary_prompt query (String.intercalate "\n\n---\n\n" tops))
  by_cases hsent : hasSubstr "no_info_found" (pyLower (pythonStrip s)) = true
  · simp [he, hs, hsent, PipelineResult.isRaised]
  · simp [he, hs, hsent, PipelineResult.isRaised]

/-! ### Claims about the retrieval pipeline -/

/-- A domain retriever fetching texts `A`, `B`, `A` (with distinct
metadata). -/
def c6Retriever : Retriever :=
  ⟨[], fun _ _ => RetrieverResult.ok
      [⟨"A", [("domain", "hr")]⟩, ⟨"B", [("domain", "it")]⟩,
       ⟨"A", [("domain", "payroll")]⟩]⟩

/-- An agent whose re-ranker echoes the passages it receives, so the
instrumented run records exactly what reached it. -/
def c6Agent : RetrievalAgent :=
  ⟨[("kb", c6Retriever)], some (fun _ ps => RerankResult.ok ps), 5⟩

/-- Claim C6: deduplication collapses passages with exactly equal text into
a single instance — the deduplicated texts are duplicate-free and cover
exactly the fetched texts — and in particular for fetched texts
`[A, B, A]` the rerank stage receives exactly `["A", "B"]` (cardinality 2),
as the instrumented pipeline run on a concrete agent confirms. -/
theorem claim_C6_dedup :
    (∀ docs : List Document,
        ((dedupByContent docs).map (fun d => d.page_content)).Nodup
          ∧ (∀ t, t ∈ (dedupByContent docs).map (fun d => d.page_content)
              ↔ t ∈ docs.map (fun d => d.page_content)))
      ∧ ((dedupByContent [⟨"A", [("domain", "hr")]⟩, ⟨"B", [("domain", "it")]⟩,
            ⟨"A", [("domain", "payroll")]⟩]).map (fun d => d.page_content) = ["A", "B"])
      ∧ (process_request c6Agent (fun _ => LLMResult.ok "ans") "q").1.rerankPassages
          = [["A", "B"]] := by
  refine ⟨fun docs => ⟨?_, fun t => ?_⟩, by decide, by decide⟩
  · rw [dedup_texts_eq_keys]
    exact foldl_keys_nodup docs [] (by simp)
  · rw [dedup_texts_eq_keys, mem_foldl_keys docs [] t]
    simp

/-- Claim C7: when every configured domain retriever returns zero passages
or raises, `process_request` returns the no-candidates sentinel immediately,
calling neither the re-ranking model nor the language model. -/
theorem claim_C7_no_candidates (agent : RetrievalAgent) (llm : String → LLMResult)
    (query : String)
    (hempty : ∀ e ∈ agent.retrievers,
        e.2.invokeFn [("k", 25)] query = RetrieverResult.ok []
          ∨ ∃ m, e.2.invokeFn [("k", 25)] query = RetrieverResult.exn m) :
    (process_request agent llm query).1.result = PipelineResult.returned noInfoFetchMsg
      ∧ (process_request agent llm query).1.rerankCalls = 0
      ∧ (process_request agent llm query).1.llmCalls = 0 := by
  have hfst : (fetch_all_docs agent.retrievers query).1 = [] :=
    foldl_fetchStep_fst_nil query agent.retrievers ([], []) hempty
  unfold process_request
  simp [hfst]

/-- A domain whose retriever finds nothing. -/
def c7EmptyRetriever : Retriever := ⟨[], fun _ _ => RetrieverResult.ok []⟩

/-- A domain whose retriever raises. -/
def c7DownRetriever : Retriever := ⟨[], fun _ _ => RetrieverResult.exn "index down"⟩

/-- An agent whose two domains find nothing and fail, respectively. -/
def c7Agent : RetrievalAgent :=
  ⟨[("hr", c7EmptyRetriever), ("it", c7DownRetriever)],
   some (fun _ ps => RerankResult.ok ps), 5⟩

/-- A synthesis model for the C7 witness (never reached). -/
def c7LLM : String → LLMResult := fun _ => LLMResult.ok "anything"

/-- Witness for C7 at the concrete input `c7Agent`, `c7LLM`. -/
theorem claim_C7_witness :
    (process_request c7Agent c7LLM "q").1.result = PipelineResult.returned noInfoFetchMsg
      ∧ (process_request c7Agent c7LLM "q").1.rerankCalls = 0
      ∧ (process_request c7Agent c7LLM "q").1.llmCalls = 0 :=
  claim_C7_no_candidates c7Agent c7LLM "q" (by
    intro e he
    cases he with
    | head => exact Or.inl rfl
    | tail _ h2 =>
      cases h2 with
      | head => exact Or.inr ⟨"index down", rfl⟩
      | tail _ h3 => cases h3)

/-- A retriever handle created with empty `search_kwargs`. -/
def c8Retriever : Retriever := ⟨[], fun _ _ => RetrieverResult.ok []⟩

/-- An agent holding the `c8Retriever` handle. -/
def c8Agent : RetrievalAgent := ⟨[("hr", c8Retriever)], none, 5⟩

/-- A model for the C8 counterexample (never reached). -/
def c8LLM : String → LLMResult := fun _ => LLMResult.ok "x"

/-- Counterexample to C8: the retriever handle starts with empty
`search_kwargs`, and after a single `process_request` call the agent's
handle carries `search_kwargs = {'k': 25}` — `process_request` mutates the
shared retriever handle on every call (line
`retriever.search_kwargs = {'k': 25}`). -/
theorem claim_C8_counterexample :
    ((process_request c8Agent c8LLM "q").2.retrievers.map
        (fun e => (e.1, e.2.search_kwargs)) = [("hr", [("k", 25)])])
      ∧ c8Retriever.search_kwargs = [] := by
  constructor
  · rw [process_request_snd, fetch_all_docs_snd]
    rfl
  · rfl

/-- Claim C8 as amended: `process_request` does mutate the configured
retriever handles — on every call it sets each one's `search_kwargs` to
`{'k': 25}` — but that is its only mutation: each retriever keeps its name
and behaviour, and the agent's re-ranker handle and `top_k_rerank` are
untouched. -/
theorem claim_C8_amended (agent : RetrievalAgent) (llm : String → LLMResult)
    (query : String) :
    ((process_request agent llm query).2.retrievers
        = agent.retrievers.map (fun e => (e.1, { e.2 with search_kwargs := [("k", 25)] })))
      ∧ (process_request agent llm query).2.reranker = agent.reranker
      ∧ (process_request agent llm query).2.top_k_rerank = agent.top_k_rerank := by
  rw [process_request_snd, fetch_all_docs_snd]
  exact ⟨rfl, rfl, rfl⟩

/-- A single document fetched for the C2 counterexample. -/
def c2Doc : Document := ⟨"A", []⟩

/-- A domain retriever returning one document. -/
def c2Retriever : Retriever := ⟨[], fun _ _ => RetrieverResult.ok [c2Doc]⟩

/-- An agent whose re-ranker was initialized but raises when called. -/
def c2Agent : RetrievalAgent :=
  ⟨[("hr", c2Retriever)], some (fun _ _ => RerankResult.exn "rerank failure"), 5⟩

/-- A synthesis model for the C2 scenarios. -/
def c2LLM : String → LLMResult := fun _ => LLMResult.ok "ans"

/-- Counterexample to C2: with an initialized re-ranker that raises at call
time, `process_request` does not degrade gracefully — the exception
propagates out of `process_request` (the `self.reranker.rerank(...)` call
has no `try` around it) and synthesis is never reached. -/
theorem claim_C2_counterexample :
    (process_request c2Agent c2LLM "q").1.result = PipelineResult.raised "rerank failure"
      ∧ (process_request c2Agent c2LLM "q").1.llmCalls = 0
      ∧ (process_request c2Agent c2LLM "q").1.result.isRaised = true := by
  decide

/-- Claim C2 as amended: the graceful degradation applies exactly when the
re-ranking model failed to initialize (`reranker is None`): then, for any
query whose fetch finds at least one document (with a positive
`top_k_rerank` and a non-raising synthesis model), the pipeline performs no
re-ranker call, keeps the first `top_k_rerank` unique passages in their
pre-rerank aggregation order as `top_docs_content`, and proceeds to
synthesis without raising.  An error raised by an initialized re-ranker at
call time, by contrast, propagates (see the counterexample). -/
theorem claim_C2_amended (agent : RetrievalAgent) (llm : String → LLMResult)
    (query : String)
    (hnone : agent.reranker = none)
    (hdocs : (fetch_all_docs agent.retrievers query).1 ≠ [])
    (hk : 0 < agent.top_k_rerank)
    (hllm : ∀ p, ∃ s, llm p = LLMResult.ok s) :
    (process_request agent llm query).1.rerankCalls = 0
      ∧ (process_request agent llm query).1.topDocs
          = ((dedupByContent (fetch_all_docs agent.retrievers query).1).map
              (fun d => d.page_content)).take agent.top_k_rerank
      ∧ (process_request agent llm query).1.llmCalls = 1
      ∧ (process_request agent llm query).1.result.isRaised = false := by
  have hfe : (fetch_all_docs agent.retrievers query).1.isEmpty = false := by
    cases h : (fetch_all_docs agent.retrievers query).1 with
    | nil => exact absurd h hdocs
    | cons a l => rfl
  have htops_ne : (((dedupByContent (fetch_all_docs agent.retrievers query).1).map
      (fun d => d.page_content)).take agent.top_k_rerank) ≠ [] := by
    have hded := dedupByContent_ne_nil _ hdocs
    cases hd : dedupByContent (fetch_all_docs agent.retrievers query).1 with
    | nil => exact absurd hd hded
    | cons a l =>
      match hk' : agent.top_k_rerank, hk with
      | n + 1, _ => simp
  have hrun : (process_request agent llm query).1
      = (synthesize { agent with retrievers := (fetch_all_docs agent.retrievers query).2 }
          llm query
          (((dedupByContent (fetch_all_docs agent.retrievers query).1).map
            (fun d => d.page_content)).take agent.top_k_rerank) 0 []).1 := by
    unfold process_request
    simp [hfe, hnone]
  rw [hrun]
  obtain ⟨h1, h2, h3, h4⟩ := synthesize_ok
    { agent with retrievers := (fetch_all_docs agent.retrievers query).2 } llm query
    (((dedupByContent (fetch_all_docs agent.retrievers query).1).map
      (fun d => d.page_content)).take agent.top_k_rerank) 0 [] htops_ne hllm
  exact ⟨h1, h2, h3, h4⟩

/-- A domain retriever for the C2 witness. -/
def c2wRetriever : Retriever := ⟨[], fun _ _ => RetrieverResult.ok [⟨"A", []⟩]⟩

/-- An agent whose re-ranker failed to initialize (`reranker is None`). -/
def c2wAgent : RetrievalAgent := ⟨[("hr", c2wRetriever)], none, 5⟩

/-- Witness for the amended C2 at the concrete input `c2wAgent`, `c2LLM`. -/
theorem claim_C2_witness :
    (process_request c2wAgent c2LLM "q").1.rerankCalls = 0
      ∧ (process_request c2wAgent c2LLM "q").1.topDocs
          = ((dedupByContent (fetch_all_docs c2wAgent.retrievers "q").1).map
              (fun d => d.page_content)).take c2wAgent.top_k_rerank
      ∧ (process_request c2wAgent c2LLM "q").1.llmCalls = 1
      ∧ (process_request c2wAgent c2LLM "q").1.result.isRaised = false :=
  claim_C2_amended c2wAgent c2LLM "q" rfl (by decide) (by decide) (fun _ => ⟨"ans", rfl⟩)

end Nexa
